import Mathlib

/-! Verification of the pro-synth audio core against its design document.
The definitions below are a shallow embedding of the TypeScript sources:
the audio engine `services/audioEngine.ts` (src/unnamed/part_006), the
App-level MIDI mapping layer (src/unnamed/part_005), the shared types
(src/unnamed/part_004) and the loop recorder `components/Looper.tsx`.
JavaScript numbers are modelled as rationals, JS `Map`/object tables as
association lists, and Web-Audio parameter automation as explicit event
lists emitted by each operation. -/

namespace ProSynth

/-- Waveform kinds, from types.ts (`WaveformType`). -/
inductive WaveformType
  | sine
  | square
  | sawtooth
  | triangle
deriving DecidableEq

/-- ADSR envelope, from types.ts (`EnvelopeSettings`). -/
structure EnvelopeSettings where
  attack : ℚ
  decay : ℚ
  sustain : ℚ
  release : ℚ
deriving DecidableEq

/-- Filter parameters, from types.ts (`FilterSettings`); the filter type
string is carried verbatim. -/
structure FilterSettings where
  frequency : ℚ
  resonance : ℚ
  ftype : String
deriving DecidableEq

/-- Full synth settings snapshot, from types.ts (`SynthSettings`). -/
structure SynthSettings where
  waveform : WaveformType
  envelope : EnvelopeSettings
  filter : FilterSettings
  detune : ℚ
  gain : ℚ
  reverb : ℚ
  delay : ℚ
  stereoWidth : ℚ
  masterTune : ℚ
  glide : Bool
  glideSpeed : ℚ
deriving DecidableEq

/-- Loop playback modes, from types.ts (`LoopMode`). -/
inductive LoopMode
  | repeat
  | oneshot
  | pingpong
deriving DecidableEq

/-- Observable actions the audio engine schedules on the Web-Audio graph.
Each carries the voice id it concerns and the scheduled data.  `panSet`
records the inputs of `calculatePan` (the log-scaled pan value itself is
irrational and not needed by any claim). -/
inductive AudioEvent
  | freqSet (vid : Nat) (time : ℚ) (freq : ℚ)
  | freqRamp (vid : Nat) (endTime : ℚ) (target : ℚ)
  | detuneSet (vid : Nat) (time : ℚ) (cents : ℚ)
  | panSet (vid : Nat) (freq : ℚ) (stereoWidth : ℚ)
  | envStart (vid : Nat) (time : ℚ)
  | envAttackRamp (vid : Nat) (endTime : ℚ)
  | envDecayRamp (vid : Nat) (endTime : ℚ) (level : ℚ)
  | gainCancel (vid : Nat) (time : ℚ)
  | gainHold (vid : Nat) (time : ℚ)
  | releaseRamp (vid : Nat) (floorLevel : ℚ) (endTime : ℚ)
  | teardownAfterMs (vid : Nat) (delayMs : ℚ)
  | voiceStarted (vid : Nat)
deriving DecidableEq

/-- State of the `AudioEngine` class (src/unnamed/part_006): the
`activeNotes` map from note label to live voice, the global
`lastFrequency` glide tracker, and a counter supplying fresh voice
identities (each `createOscillator` call makes a new node). -/
structure EngineState where
  activeNotes : List (String × Nat)
  lastFrequency : Option ℚ
  nextVoiceId : Nat
deriving DecidableEq

/-- Engine state right after `init`: no active notes, no glide history. -/
def initEngine : EngineState :=
  { activeNotes := [], lastFrequency := none, nextVoiceId := 0 }

/-- Lookup in the active-voice table (JS `Map.get`). -/
def lookupNote (s : EngineState) (label : String) : Option Nat :=
  (s.activeNotes.find? (fun p => p.1 = label)).map (fun p => p.2)

/-- Removal from an association table (JS `Map.delete`). -/
def eraseKey (label : String) (m : List (String × Nat)) : List (String × Nat) :=
  m.filter (fun p => ¬ (p.1 = label))

/-- JS `Map.set`: replaces any entry under the key, here realised as
erase-then-append. -/
def insertNote (label : String) (vid : Nat) (m : List (String × Nat)) :
    List (String × Nat) :=
  eraseKey label m ++ [(label, vid)]

/-- `AudioEngine.stopNote` (part_006 lines 116-137): if the label has a
live voice, cancel its scheduled gain ramps, hold the current gain,
schedule an exponential release ramp to the 0.001 floor over
`envelope.release`, schedule node teardown `release*1000 + 100` ms later,
and delete the table entry immediately; otherwise a no-op. -/
def stopNote (label : String) (st : SynthSettings) (now : ℚ) (s : EngineState) :
    EngineState × List AudioEvent :=
  match lookupNote s label with
  | none => (s, [])
  | some vid =>
      ({ s with activeNotes := eraseKey label s.activeNotes },
       [AudioEvent.gainCancel vid now,
        AudioEvent.gainHold vid now,
        AudioEvent.releaseRamp vid (1/1000) (now + st.envelope.release),
        AudioEvent.teardownAfterMs vid (st.envelope.release * 1000 + 100)])

/-- Frequency-scheduling part of `AudioEngine.playNote` (part_006 lines
79-95), translated from the source: when glide is on, the tracked
`lastFrequency` is truthy (non-null and non-zero) and positive and
differs from the target, and `glideSpeed > 0`, the oscillator is pinned
to the old frequency at `now` and at `now + 0.002`, then ramped
exponentially to the target ending at
`now + 0.002 + max glideSpeed 0.005`; otherwise the target is set at
`now`. -/
def playNoteFreqEvents (vid : Nat) (last : Option ℚ) (st : SynthSettings)
    (freq : ℚ) (now : ℚ) : List AudioEvent :=
  match last with
  | some p =>
      if st.glide = true ∧ 0 < p ∧ p ≠ freq ∧ 0 < st.glideSpeed then
        [AudioEvent.freqSet vid now p,
         AudioEvent.freqSet vid (now + 2/1000) p,
         AudioEvent.freqRamp vid (now + 2/1000 + max st.glideSpeed (5/1000)) freq]
      else
        [AudioEvent.freqSet vid now freq]
  | none => [AudioEvent.freqSet vid now freq]

/-- `AudioEngine.playNote` (part_006 lines 65-114), assuming the engine
is initialised: retire any live voice under the same label through
`stopNote`, build a fresh oscillator/gain/panner voice, schedule its
frequency (glide or immediate), detune, pan and attack/decay envelope,
start it, register it in the table, and record the target frequency in
the global `lastFrequency` tracker. -/
def playNote (freq : ℚ) (label : String) (st : SynthSettings) (now : ℚ)
    (s : EngineState) : EngineState × List AudioEvent :=
  let stopped := if (lookupNote s label).isSome then stopNote label st now s else (s, [])
  let s1 := stopped.1
  let vid := s1.nextVoiceId
  let freqEvs := playNoteFreqEvents vid s1.lastFrequency st freq now
  ({ activeNotes := insertNote label vid s1.activeNotes,
     lastFrequency := some freq,
     nextVoiceId := vid + 1 },
   stopped.2 ++ freqEvs ++
     [AudioEvent.detuneSet vid now (st.detune + st.masterTune),
      AudioEvent.panSet vid freq st.stereoWidth,
      AudioEvent.envStart vid now,
      AudioEvent.envAttackRamp vid (now + st.envelope.attack),
      AudioEvent.envDecayRamp vid (now + st.envelope.attack + st.envelope.decay)
        (max st.envelope.sustain (1/1000)),
      AudioEvent.voiceStarted vid])

/-- Key-uniqueness of the active-voice table: at most one live voice per
note label (what a JS `Map` guarantees structurally). -/
def NodupKeys (m : List (String × Nat)) : Prop :=
  (m.map Prod.fst).Nodup

/-- Number of table entries under one label. -/
def countKey (label : String) (m : List (String × Nat)) : Nat :=
  m.countP (fun p => p.1 = label)

/-- Classifier for oscillator-frequency automation events. -/
def isFreqEvent : AudioEvent → Bool
  | .freqSet _ _ _ => true
  | .freqRamp _ _ _ => true
  | _ => false

/-- The oscillator-frequency schedule contained in an event trace. -/
def freqEventsOf (evs : List AudioEvent) : List AudioEvent :=
  evs.filter isFreqEvent

/-- Glide policy exactly as the design document words it (spec 4.3 /
claim C2): glide enabled, a previous frequency recorded, that recorded
frequency different from the target, and glide time positive - with no
further requirement on the recorded frequency.  Used to compare the
spec's wording with `playNoteFreqEvents`, which was translated from the
source and additionally tests `0 < p`. -/
def specFreqSchedule (vid : Nat) (last : Option ℚ) (st : SynthSettings)
    (freq now : ℚ) : List AudioEvent :=
  match last with
  | some p =>
      if st.glide = true ∧ p ≠ freq ∧ 0 < st.glideSpeed then
        [AudioEvent.freqSet vid now p,
         AudioEvent.freqSet vid (now + 2/1000) p,
         AudioEvent.freqRamp vid (now + 2/1000 + max st.glideSpeed (5/1000)) freq]
      else
        [AudioEvent.freqSet vid now freq]
  | none => [AudioEvent.freqSet vid now freq]

/-- Engine states reachable from the initialised engine through note
operations with positive frequencies.  Every call site of
`playNote` in the repository supplies a positive frequency: the virtual
keyboard and MIDI note-on map pitches through `midiNoteToFrequency`
(always positive), the metronome tick uses 880 Hz, and loop replay
re-emits previously recorded frequencies. -/
inductive Reachable : EngineState → Prop
  | init : Reachable initEngine
  | play (s : EngineState) (f : ℚ) (label : String) (st : SynthSettings) (now : ℚ) :
      Reachable s → 0 < f → Reachable (playNote f label st now s).1
  | stop (s : EngineState) (label : String) (st : SynthSettings) (now : ℚ) :
      Reachable s → Reachable (stopNote label st now s).1

lemma find?_eraseKey_self (label : String) (m : List (String × Nat)) :
    (eraseKey label m).find? (fun p => p.1 = label) = none := by
  apply List.find?_eq_none.2
  intro x hx
  have hmem := List.mem_filter.1 hx
  simpa using hmem.2

lemma eraseKey_eraseKey (label : String) (m : List (String × Nat)) :
    eraseKey label (eraseKey label m) = eraseKey label m := by
  simp [eraseKey, List.filter_filter]

lemma find?_insertNote_self (label : String) (vid : Nat) (m : List (String × Nat)) :
    (insertNote label vid m).find? (fun p => p.1 = label) = some (label, vid) := by
  unfold insertNote
  rw [List.find?_append, find?_eraseKey_self]
  simp

lemma countKey_eraseKey (label : String) (m : List (String × Nat)) :
    countKey label (eraseKey label m) = 0 := by
  simp only [countKey, List.countP_eq_zero]
  intro x hx
  have hmem := List.mem_filter.1 hx
  simpa using hmem.2

lemma label_not_mem_eraseKey (label : String) (m : List (String × Nat)) :
    label ∉ (eraseKey label m).map Prod.fst := by
  intro h
  rcases List.mem_map.1 h with ⟨x, hx, hfst⟩
  have hmem := List.mem_filter.1 hx
  have : ¬ (x.1 = label) := by simpa using hmem.2
  exact this hfst

lemma nodupKeys_eraseKey (label : String) (m : List (String × Nat))
    (h : NodupKeys m) : NodupKeys (eraseKey label m) :=
  ((List.filter_sublist m).map Prod.fst).nodup h

lemma nodupKeys_insertNote (label : String) (vid : Nat) (m : List (String × Nat))
    (h : NodupKeys m) : NodupKeys (insertNote label vid m) := by
  unfold NodupKeys insertNote
  rw [List.map_append]
  refine List.Nodup.append (nodupKeys_eraseKey label m h) (by simp) ?_
  intro a ha hb
  have hb' : a = label := by simpa using hb
  exact label_not_mem_eraseKey label m (hb' ▸ ha)

/-- Uniform description of the state after `playNote`: whether or not a
voice had to be retired first, the label ends up bound to the fresh
voice id, the glide tracker holds the new target, and the id counter is
bumped. -/
lemma playNote_state (f : ℚ) (label : String) (st : SynthSettings) (now : ℚ)
    (s : EngineState) :
    (playNote f label st now s).1 =
      { activeNotes := eraseKey label s.activeNotes ++ [(label, s.nextVoiceId)],
        lastFrequency := some f,
        nextVoiceId := s.nextVoiceId + 1 } := by
  rcases h : lookupNote s label with _ | vid <;>
    simp [playNote, stopNote, h, insertNote, eraseKey_eraseKey]

lemma stopNote_lastFrequency (label : String) (st : SynthSettings) (now : ℚ)
    (s : EngineState) : (stopNote label st now s).1.lastFrequency = s.lastFrequency := by
  rcases h : lookupNote s label with _ | vid <;> simp [stopNote, h]

lemma stopNote_nextVoiceId (label : String) (st : SynthSettings) (now : ℚ)
    (s : EngineState) : (stopNote label st now s).1.nextVoiceId = s.nextVoiceId := by
  rcases h : lookupNote s label with _ | vid <;> simp [stopNote, h]

lemma countKey_insertNote (label : String) (vid : Nat) (m : List (String × Nat)) :
    countKey label (insertNote label vid m) = 1 := by
  unfold insertNote
  show (eraseKey label m ++ [(label, vid)]).countP (fun p => p.1 = label) = 1
  rw [List.countP_append]
  have h0 : (eraseKey label m).countP (fun p => (p.1 = label : Bool)) = 0 :=
    countKey_eraseKey label m
  rw [h0]
  simp

lemma filter_playNoteFreqEvents (vid : Nat) (last : Option ℚ) (st : SynthSettings)
    (f now : ℚ) :
    (playNoteFreqEvents vid last st f now).filter isFreqEvent =
      playNoteFreqEvents vid last st f now := by
  rcases last with _ | p
  · simp [playNoteFreqEvents, isFreqEvent]
  · by_cases hc : st.glide = true ∧ 0 < p ∧ p ≠ f ∧ 0 < st.glideSpeed
    · simp [playNoteFreqEvents, hc, isFreqEvent]
    · simp [playNoteFreqEvents, hc, isFreqEvent]

/-- The oscillator-frequency schedule of a `playNote` call is exactly
its glide/immediate block: the retire path and the envelope block touch
only gain, detune and pan. -/
lemma freqEventsOf_playNote (f : ℚ) (label : String) (st : SynthSettings)
    (now : ℚ) (s : EngineState) :
    freqEventsOf (playNote f label st now s).2 =
      playNoteFreqEvents s.nextVoiceId s.lastFrequency st f now := by
  rcases h : lookupNote s label with _ | vid
  · simp [playNote, stopNote, h, freqEventsOf, List.filter_append, isFreqEvent,
      filter_playNoteFreqEvents]
  · simp [playNote, stopNote, h, freqEventsOf, List.filter_append, isFreqEvent,
      filter_playNoteFreqEvents]

/-- On states where the recorded glide frequency is positive whenever
present, the source glide condition (which additionally tests
`lastFrequency > 0`, JS truthiness plus the explicit comparison)
coincides with the design document's wording. -/
lemma playNoteFreqEvents_eq_spec (vid : Nat) (last : Option ℚ) (st : SynthSettings)
    (f now : ℚ) (hpos : ∀ p : ℚ, last = some p → 0 < p) :
    playNoteFreqEvents vid last st f now = specFreqSchedule vid last st f now := by
  rcases last with _ | p
  · rfl
  · have hp : 0 < p := hpos p rfl
    by_cases hc : st.glide = true ∧ p ≠ f ∧ 0 < st.glideSpeed
    · have hcode : st.glide = true ∧ 0 < p ∧ p ≠ f ∧ 0 < st.glideSpeed :=
        ⟨hc.1, hp, hc.2.1, hc.2.2⟩
      simp [playNoteFreqEvents, specFreqSchedule, hcode, hc]
    · have hcode : ¬ (st.glide = true ∧ 0 < p ∧ p ≠ f ∧ 0 < st.glideSpeed) := by
        intro h
        exact hc ⟨h.1, h.2.2.1, h.2.2.2⟩
      simp [playNoteFreqEvents, specFreqSchedule, hcode, hc]

/-- On every reachable state the recorded glide frequency, when present,
is positive. -/
lemma reachable_lastFreq_pos (s : EngineState) (hs : Reachable s) :
    ∀ p : ℚ, s.lastFrequency = some p → 0 < p := by
  induction hs with
  | init => intro p hp; simp [initEngine] at hp
  | play s f label st now _ hf _ =>
      intro p hp
      rw [playNote_state] at hp
      simp at hp
      exact hp ▸ hf
  | stop s label st now _ ih =>
      intro p hp
      rw [stopNote_lastFrequency] at hp
      exact ih p hp

/-- A concrete settings snapshot used by witnesses. -/
def sampleSettings : SynthSettings :=
  { waveform := WaveformType.sawtooth,
    envelope := { attack := 1/100, decay := 1/10, sustain := 1/2, release := 3/10 },
    filter := { frequency := 2000, resonance := 1, ftype := "lowpass" },
    detune := 0, gain := 1/2, reverb := 3/10, delay := 1/5,
    stereoWidth := 1/2, masterTune := 0, glide := true, glideSpeed := 1/5 }

/-- Formal content of claim C1: after two `playNote` calls on the same
label with no intervening stop, the table holds exactly one voice for
the label; both intermediate tables keep at most one voice per label;
the first call's voice and the second call's voice are distinct; and the
second call's trace schedules the old voice's release ramp (the stop
path) before it starts the new voice. -/
def DoubleStartProp (s : EngineState) (st1 st2 : SynthSettings)
    (f1 f2 : ℚ) (label : String) (t1 t2 : ℚ) : Prop :=
  countKey label
      (playNote f2 label st2 t2 (playNote f1 label st1 t1 s).1).1.activeNotes = 1 ∧
  NodupKeys (playNote f1 label st1 t1 s).1.activeNotes ∧
  NodupKeys (playNote f2 label st2 t2 (playNote f1 label st1 t1 s).1).1.activeNotes ∧
  ∃ v1 v2 : Nat,
    lookupNote (playNote f1 label st1 t1 s).1 label = some v1 ∧
    lookupNote (playNote f2 label st2 t2 (playNote f1 label st1 t1 s).1).1 label
      = some v2 ∧
    v1 ≠ v2 ∧
    [AudioEvent.releaseRamp v1 (1/1000) (t2 + st2.envelope.release),
     AudioEvent.voiceStarted v2].Sublist
      (playNote f2 label st2 t2 (playNote f1 label st1 t1 s).1).2

/-- C1: for every note identifier, calling `playNote` twice in a row
with the same identifier and no intervening stop leaves exactly one
live voice registered for that identifier; the old voice is first
retired via the stop path (its own release scheduled) before the new
voice is created and registered, and at every point the table holds at
most one voice per label. -/
theorem claim_C1_double_start (s : EngineState) (st1 st2 : SynthSettings)
    (f1 f2 : ℚ) (label : String) (t1 t2 : ℚ)
    (hkeys : NodupKeys s.activeNotes) :
    DoubleStartProp s st1 st2 f1 f2 label t1 t2 := by
  have hs1 := playNote_state f1 label st1 t1 s
  set s1 := (playNote f1 label st1 t1 s).1 with hs1def
  have hlk1 : lookupNote s1 label = some s.nextVoiceId := by
    rw [hs1]
    show ((insertNote label s.nextVoiceId s.activeNotes).find?
      (fun p => p.1 = label)).map (fun p => p.2) = some s.nextVoiceId
    rw [find?_insertNote_self]
    rfl
  have hnd1 : NodupKeys s1.activeNotes := by
    rw [hs1]
    exact nodupKeys_insertNote label s.nextVoiceId s.activeNotes hkeys
  have hs2 := playNote_state f2 label st2 t2 s1
  have hlk2 : lookupNote (playNote f2 label st2 t2 s1).1 label
      = some s1.nextVoiceId := by
    rw [hs2]
    show ((insertNote label s1.nextVoiceId s1.activeNotes).find?
      (fun p => p.1 = label)).map (fun p => p.2) = some s1.nextVoiceId
    rw [find?_insertNote_self]
    rfl
  have hn1 : s1.nextVoiceId = s.nextVoiceId + 1 := by rw [hs1]
  refine ⟨?_, hnd1, ?_, s.nextVoiceId, s1.nextVoiceId, hlk1, hlk2, ?_, ?_⟩
  · rw [hs2]
    exact countKey_insertNote label s1.nextVoiceId s1.activeNotes
  · rw [hs2]
    exact nodupKeys_insertNote label s1.nextVoiceId s1.activeNotes hnd1
  · rw [hn1]
    exact Nat.ne_of_lt (Nat.lt_succ_self _)
  · have htr : (playNote f2 label st2 t2 s1).2 =
        [AudioEvent.gainCancel s.nextVoiceId t2,
         AudioEvent.gainHold s.nextVoiceId t2,
         AudioEvent.releaseRamp s.nextVoiceId (1/1000) (t2 + st2.envelope.release),
         AudioEvent.teardownAfterMs s.nextVoiceId (st2.envelope.release * 1000 + 100)] ++
        (playNoteFreqEvents s1.nextVoiceId s1.lastFrequency st2 f2 t2 ++
         [AudioEvent.detuneSet s1.nextVoiceId t2 (st2.detune + st2.masterTune),
          AudioEvent.panSet s1.nextVoiceId f2 st2.stereoWidth,
          AudioEvent.envStart s1.nextVoiceId t2,
          AudioEvent.envAttackRamp s1.nextVoiceId (t2 + st2.envelope.attack),
          AudioEvent.envDecayRamp s1.nextVoiceId
            (t2 + st2.envelope.attack + st2.envelope.decay)
            (max st2.envelope.sustain (1/1000)),
          AudioEvent.voiceStarted s1.nextVoiceId]) := by
      simp [playNote, stopNote, hlk1]
    rw [htr]
    have hrel : [AudioEvent.releaseRamp s.nextVoiceId (1/1000)
        (t2 + st2.envelope.release)].Sublist
        [AudioEvent.gainCancel s.nextVoiceId t2,
         AudioEvent.gainHold s.nextVoiceId t2,
         AudioEvent.releaseRamp s.nextVoiceId (1/1000) (t2 + st2.envelope.release),
         AudioEvent.teardownAfterMs s.nextVoiceId
           (st2.envelope.release * 1000 + 100)] := by
      apply List.singleton_sublist.2
      simp
    have hvs : [AudioEvent.voiceStarted s1.nextVoiceId].Sublist
        (playNoteFreqEvents s1.nextVoiceId s1.lastFrequency st2 f2 t2 ++
         [AudioEvent.detuneSet s1.nextVoiceId t2 (st2.detune + st2.masterTune),
          AudioEvent.panSet s1.nextVoiceId f2 st2.stereoWidth,
          AudioEvent.envStart s1.nextVoiceId t2,
          AudioEvent.envAttackRamp s1.nextVoiceId (t2 + st2.envelope.attack),
          AudioEvent.envDecayRamp s1.nextVoiceId
            (t2 + st2.envelope.attack + st2.envelope.decay)
            (max st2.envelope.sustain (1/1000)),
          AudioEvent.voiceStarted s1.nextVoiceId]) := by
      apply List.singleton_sublist.2
      simp
    exact List.Sublist.append hrel hvs

/-- Witness for C1 at a concrete input: start A4 twice on a fresh
engine. -/
theorem claim_C1_double_start_witness :
    NodupKeys initEngine.activeNotes ∧
    DoubleStartProp initEngine sampleSettings sampleSettings 440 440 "A4" 0 1 :=
  ⟨by simp [initEngine, NodupKeys],
   claim_C1_double_start initEngine sampleSettings sampleSettings 440 440 "A4" 0 1
     (by simp [initEngine, NodupKeys])⟩

/-- Formal content of claim C2: on a reachable engine state, a
`playNote` call updates the single global `lastFrequency` tracker to
the target (whatever the label), and the oscillator-frequency schedule
it emits equals the design document's glide policy: hold the previous
frequency at `now` and at `now + 2ms`, then ramp exponentially to the
target ending `max(glideSpeed, 5ms)` later, exactly when glide is on, a
previous frequency was recorded, it differs from the target and the
glide time is positive; otherwise a single immediate set. -/
def GlidePolicyProp (s : EngineState) (f : ℚ) (label : String)
    (st : SynthSettings) (now : ℚ) : Prop :=
  (playNote f label st now s).1.lastFrequency = some f ∧
  freqEventsOf (playNote f label st now s).2 =
    specFreqSchedule s.nextVoiceId s.lastFrequency st f now

/-- C2: for every call to `playNote` on a reachable engine state with a
positive target frequency, the emitted oscillator-frequency schedule
follows the spec's glide policy, and the global previous-frequency
tracker is set to the target regardless of note label. -/
theorem claim_C2_glide_policy (s : EngineState) (hs : Reachable s)
    (f : ℚ) (hf : 0 < f) (label : String) (st : SynthSettings) (now : ℚ) :
    GlidePolicyProp s f label st now := by
  constructor
  · rw [playNote_state]
  · rw [freqEventsOf_playNote]
    exact playNoteFreqEvents_eq_spec s.nextVoiceId s.lastFrequency st f now
      (reachable_lastFreq_pos s hs)

/-- Witness for C2 at a concrete input: play A4 then glide to A5 on a
fresh engine. -/
theorem claim_C2_glide_policy_witness :
    Reachable (playNote 440 "A4" sampleSettings 0 initEngine).1 ∧ (0 : ℚ) < 880 ∧
    GlidePolicyProp (playNote 440 "A4" sampleSettings 0 initEngine).1 880 "A5"
      sampleSettings 1 :=
  ⟨Reachable.play initEngine 440 "A4" sampleSettings 0 Reachable.init (by norm_num),
   by norm_num,
   claim_C2_glide_policy (playNote 440 "A4" sampleSettings 0 initEngine).1
     (Reachable.play initEngine 440 "A4" sampleSettings 0 Reachable.init (by norm_num))
     880 (by norm_num) "A5" sampleSettings 1⟩

/-- One entry of `MAPPABLE_PARAMS` (src/unnamed/part_005 lines 20-33):
a settings-parameter path with its declared controller range. -/
structure ParamDef where
  id : String
  label : String
  minVal : ℚ
  maxVal : ℚ
deriving DecidableEq

/-- The `MAPPABLE_PARAMS` registry, verbatim from part_005.  Note that
the boolean path "glide" has no entry here. -/
def MAPPABLE_PARAMS : List ParamDef :=
  [⟨"filter.frequency", "Filter Cutoff", 20, 15000⟩,
   ⟨"filter.resonance", "Filter Resonance", 1/10, 20⟩,
   ⟨"envelope.attack", "Attack", 1/100, 2⟩,
   ⟨"envelope.decay", "Decay", 1/100, 2⟩,
   ⟨"envelope.sustain", "Sustain", 1/100, 1⟩,
   ⟨"envelope.release", "Release", 1/100, 3⟩,
   ⟨"gain", "Master Volume", 0, 1⟩,
   ⟨"detune", "Detune", -100, 100⟩,
   ⟨"stereoWidth", "Stereo Width", 0, 1⟩,
   ⟨"reverb", "Reverb Mix", 0, 4/5⟩,
   ⟨"delay", "Delay Mix", 0, 4/5⟩,
   ⟨"glideSpeed", "Glide Speed", 1/100, 1⟩]

/-- The MIDI mapping table (a JS object keyed by controller number),
modelled as an association list controller-number to parameter path. -/
def MIDIMapping := List (Nat × String)

/-- Lookup of the parameter path bound to a controller number. -/
def lookupCC (m : List (Nat × String)) (cc : Nat) : Option String :=
  (m.find? (fun e => e.1 = cc)).map (fun e => e.2)

/-- The learn-mode assignment of `handleMIDIMessage` (part_005 lines
112-121): delete any existing entry for the incoming controller number,
delete every entry bound to the armed parameter path, then bind the
controller number to that path. -/
def assignMapping (m : List (Nat × String)) (cc : Nat) (p : String) :
    List (Nat × String) :=
  ((m.filter (fun e => ¬ (e.1 = cc))).filter (fun e => ¬ (e.2 = p))) ++ [(cc, p)]

/-- Splitting a character list at '.' separators, the structural
counterpart of JS `path.split('.')`. -/
def splitCharsOnDot : List Char → List (List Char)
  | [] => [[]]
  | c :: rest =>
      let r := splitCharsOnDot rest
      if c = '.' then [] :: r
      else
        match r with
        | [] => [[c]]
        | w :: ws => (c :: w) :: ws

/-- `path.split('.')` as used by `updateNestedSetting`. -/
def splitPath (s : String) : List String :=
  (splitCharsOnDot s.data).map (fun cs => String.mk cs)

/-- `updateNestedSetting` (part_005 lines 84-99): two-segment paths
update the nested field; the single-segment path "glide" is thresholded
at 0.5; other single-segment numeric paths are set directly.  Paths
outside the settings record (impossible from `MAPPABLE_PARAMS`) leave
the observable settings unchanged, as would a write to an unknown JS
object key. -/
def updateNestedSetting (path : String) (v : ℚ) (st : SynthSettings) :
    SynthSettings :=
  match splitPath path with
  | [a, b] =>
      match a, b with
      | "envelope", "attack" => { st with envelope := { st.envelope with attack := v } }
      | "envelope", "decay" => { st with envelope := { st.envelope with decay := v } }
      | "envelope", "sustain" => { st with envelope := { st.envelope with sustain := v } }
      | "envelope", "release" => { st with envelope := { st.envelope with release := v } }
      | "filter", "frequency" => { st with filter := { st.filter with frequency := v } }
      | "filter", "resonance" => { st with filter := { st.filter with resonance := v } }
      | _, _ => st
  | [a] =>
      if a = "glide" then { st with glide := decide (v > 1/2) }
      else
        match a with
        | "gain" => { st with gain := v }
        | "detune" => { st with detune := v }
        | "reverb" => { st with reverb := v }
        | "delay" => { st with delay := v }
        | "stereoWidth" => { st with stereoWidth := v }
        | "glideSpeed" => { st with glideSpeed := v }
        | "masterTune" => { st with masterTune := v }
        | _ => st
  | _ => st

/-- Read a settings field back through its parameter path. -/
def getParamValue (st : SynthSettings) (path : String) : Option ℚ :=
  match path with
  | "filter.frequency" => some st.filter.frequency
  | "filter.resonance" => some st.filter.resonance
  | "envelope.attack" => some st.envelope.attack
  | "envelope.decay" => some st.envelope.decay
  | "envelope.sustain" => some st.envelope.sustain
  | "envelope.release" => some st.envelope.release
  | "gain" => some st.gain
  | "detune" => some st.detune
  | "stereoWidth" => some st.stereoWidth
  | "reverb" => some st.reverb
  | "delay" => some st.delay
  | "glideSpeed" => some st.glideSpeed
  | _ => none

/-- The App-level state `handleMIDIMessage` reads and writes: the
mapping table, the armed learn-mode parameter, and the settings. -/
structure MidiState where
  mappings : List (Nat × String)
  learningParam : Option String
  settings : SynthSettings
deriving DecidableEq

/-- Note actions routed to the audio engine by the note-on/note-off
branches.  The label/frequency helpers (`getNoteLabel`,
`midiNoteToFrequency`) live in `constants.tsx`, which is not among the
sources; the actions therefore carry the raw MIDI note number, which is
all the mapping-layer claims need. -/
inductive MidiNoteAction
  | start (midiNote : Nat)
  | stop (midiNote : Nat)
deriving DecidableEq

/-- `handleMIDIMessage` (part_005 lines 101-134): dispatch on the
command nibble; note-on with positive velocity starts a note, note-off
(or note-on with zero velocity) ends it; a control change either performs a
learn-mode assignment (when a parameter is armed) or rescales the 0-127
controller
value into the bound parameter's declared range and applies it. -/
def handleMIDIMessage (status data1 data2 : Nat) (s : MidiState) :
    MidiState × List MidiNoteAction :=
  let command := status &&& 0xF0
  if command = 0x90 ∧ 0 < data2 then (s, [MidiNoteAction.start data1])
  else if command = 0x80 ∨ (command = 0x90 ∧ data2 = 0) then
    (s, [MidiNoteAction.stop data1])
  else if command = 0xB0 then
    match s.learningParam with
    | some p =>
        ({ s with mappings := assignMapping s.mappings data1 p,
                  learningParam := none }, [])
    | none =>
        match lookupCC s.mappings data1 with
        | some path =>
            match MAPPABLE_PARAMS.find? (fun pd => pd.id = path) with
            | some pd =>
                ({ s with settings := (updateNestedSetting path
                    (((data2 : ℚ) / 127) * (pd.maxVal - pd.minVal) + pd.minVal)
                    s.settings) }, [])
            | none => (s, [])
        | none => (s, [])
  else (s, [])

/-- Key-uniqueness of the mapping table (JS objects cannot repeat a
key). -/
def CCNodupKeys (m : List (Nat × String)) : Prop :=
  (m.map Prod.fst).Nodup

/-- Each parameter path appears in at most one mapping entry. -/
def ParamOnce (m : List (Nat × String)) : Prop :=
  (m.map Prod.snd).Nodup

lemma mem_assignMapping_cases (m : List (Nat × String)) (cc : Nat) (p : String)
    (e : Nat × String) (he : e ∈ assignMapping m cc p) :
    (e ∈ m ∧ e.1 ≠ cc ∧ e.2 ≠ p) ∨ e = (cc, p) := by
  unfold assignMapping at he
  rcases List.mem_append.1 he with h | h
  · have h2 := List.mem_filter.1 h
    have h1 := List.mem_filter.1 h2.1
    refine Or.inl ⟨h1.1, ?_, ?_⟩
    · simpa using h1.2
    · simpa using h2.2
  · exact Or.inr (by simpa using h)

lemma lookupCC_assignMapping_self (m : List (Nat × String)) (cc : Nat) (p : String) :
    lookupCC (assignMapping m cc p) cc = some p := by
  unfold lookupCC assignMapping
  rw [List.find?_append]
  have hnone : ((m.filter (fun e => ¬ (e.1 = cc))).filter
      (fun e => ¬ (e.2 = p))).find? (fun e => e.1 = cc) = none := by
    apply List.find?_eq_none.2
    intro e he
    have h2 := List.mem_filter.1 he
    have h1 := List.mem_filter.1 h2.1
    simpa using h1.2
  rw [hnone]
  simp

lemma lookupCC_assignMapping_other (m : List (Nat × String)) (cc : Nat)
    (p : String) (c : Nat) (hc : c ≠ cc) :
    lookupCC (assignMapping m cc p) c ≠ some p := by
  intro hsome
  unfold lookupCC at hsome
  rcases Option.map_eq_some'.1 hsome with ⟨e, hfind, hval⟩
  have hkey : e.1 = c := by simpa using List.find?_some hfind
  have hmem := List.mem_of_find?_eq_some hfind
  rcases mem_assignMapping_cases m cc p e hmem with ⟨_, _, hne⟩ | heq
  · exact hne hval
  · exact hc (by rw [← hkey, heq])

lemma ccNodupKeys_assignMapping (m : List (Nat × String)) (cc : Nat) (p : String)
    (h : CCNodupKeys m) : CCNodupKeys (assignMapping m cc p) := by
  unfold CCNodupKeys assignMapping
  rw [List.map_append]
  have hsub : ((m.filter (fun e => ¬ (e.1 = cc))).filter
      (fun e => ¬ (e.2 = p))).Sublist m :=
    (List.filter_sublist _).trans (List.filter_sublist m)
  refine List.Nodup.append ((hsub.map Prod.fst).nodup h) (by simp) ?_
  intro a ha hb
  have hb' : a = cc := by simpa using hb
  rcases List.mem_map.1 ha with ⟨e, he, hfst⟩
  have h2 := List.mem_filter.1 he
  have h1 := List.mem_filter.1 h2.1
  have : ¬ (e.1 = cc) := by simpa using h1.2
  exact this (hfst.trans hb')

lemma paramOnce_assignMapping (m : List (Nat × String)) (cc : Nat) (p : String)
    (h : ParamOnce m) : ParamOnce (assignMapping m cc p) := by
  unfold ParamOnce assignMapping
  rw [List.map_append]
  have hsub : ((m.filter (fun e => ¬ (e.1 = cc))).filter
      (fun e => ¬ (e.2 = p))).Sublist m :=
    (List.filter_sublist _).trans (List.filter_sublist m)
  refine List.Nodup.append ((hsub.map Prod.snd).nodup h) (by simp) ?_
  intro a ha hb
  have hb' : a = p := by simpa using hb
  rcases List.mem_map.1 ha with ⟨e, he, hsnd⟩
  have h2 := List.mem_filter.1 he
  have : ¬ (e.2 = p) := by simpa using h2.2
  exact this (hsnd.trans hb')

/-- After rebinding the same controller to a second parameter, no
controller other than it is bound to either parameter. -/
lemma lookupCC_double_assign (m : List (Nat × String)) (cc : Nat)
    (p q : String) (c : Nat) (hc : c ≠ cc) :
    lookupCC (assignMapping (assignMapping m cc p) cc q) c ≠ some p := by
  intro hsome
  unfold lookupCC at hsome
  rcases Option.map_eq_some'.1 hsome with ⟨e, hfind, hval⟩
  have hkey : e.1 = c := by simpa using List.find?_some hfind
  have hmem := List.mem_of_find?_eq_some hfind
  rcases mem_assignMapping_cases _ cc q e hmem with ⟨hmem1, hkne, _⟩ | heq
  · rcases mem_assignMapping_cases m cc p e hmem1 with ⟨_, _, hne⟩ | heq1
    · exact hne hval
    · exact hkne (by rw [heq1])
  · exact hc (by rw [← hkey, heq])

/-- Formal content of claim C3: with parameter path `P` armed, a
control-change message on controller `cc` rewrites the table via the
learn-mode assignment and clears the learn session; the resulting table
binds `cc` to `P` and no other controller to `P`, keeps every controller
bound at most once and every parameter bound at most once; re-learning
the same controller to `Q` leaves `cc` bound to `Q` with no other
controller bound to `P` or `Q`; and re-learning `P` onto a different
controller `D` removes the binding of `cc` to `P`. -/
def LearnAssignProp (m : List (Nat × String)) (cc : Nat) (P : String)
    (status data2 : Nat) (st : SynthSettings) : Prop :=
  (handleMIDIMessage status cc data2 ⟨m, some P, st⟩).1.mappings
      = assignMapping m cc P ∧
  (handleMIDIMessage status cc data2 ⟨m, some P, st⟩).1.learningParam = none ∧
  lookupCC (assignMapping m cc P) cc = some P ∧
  (∀ c : Nat, c ≠ cc → lookupCC (assignMapping m cc P) c ≠ some P) ∧
  CCNodupKeys (assignMapping m cc P) ∧
  ParamOnce (assignMapping m cc P) ∧
  (∀ Q : String,
    lookupCC (assignMapping (assignMapping m cc P) cc Q) cc = some Q ∧
    ∀ c : Nat, c ≠ cc →
      lookupCC (assignMapping (assignMapping m cc P) cc Q) c ≠ some P ∧
      lookupCC (assignMapping (assignMapping m cc P) cc Q) c ≠ some Q) ∧
  (∀ D : Nat, cc ≠ D →
    lookupCC (assignMapping (assignMapping m cc P) D P) cc ≠ some P)

/-- C3: the learn-mode assignment keeps the mapping table a partial
bijection - the armed parameter ends bound to exactly the incoming
controller number, prior bindings of either side are removed, and the
one-parameter-per-controller / one-controller-per-parameter invariants
are preserved. -/
theorem claim_C3_learn_assignment (m : List (Nat × String)) (cc : Nat)
    (P : String) (status data2 : Nat) (st : SynthSettings)
    (hst : status &&& 0xF0 = 0xB0) (hnd : CCNodupKeys m) (hpo : ParamOnce m) :
    LearnAssignProp m cc P status data2 st := by
  have hmsg : (handleMIDIMessage status cc data2 ⟨m, some P, st⟩).1
      = { mappings := assignMapping m cc P, learningParam := none, settings := st } := by
    simp [handleMIDIMessage, hst]
  refine ⟨by rw [hmsg], by rw [hmsg],
    lookupCC_assignMapping_self m cc P,
    fun c hc => lookupCC_assignMapping_other m cc P c hc,
    ccNodupKeys_assignMapping m cc P hnd,
    paramOnce_assignMapping m cc P hpo,
    fun Q => ⟨lookupCC_assignMapping_self _ cc Q,
      fun c hc => ⟨lookupCC_double_assign m cc P Q c hc,
        lookupCC_assignMapping_other _ cc Q c hc⟩⟩,
    fun D hD => lookupCC_assignMapping_other _ D P cc hD⟩

/-- Witness for C3 at a concrete input: the default persisted table,
arming the attack parameter on controller 5. -/
theorem claim_C3_learn_assignment_witness :
    (176 &&& 0xF0 = 0xB0) ∧
    CCNodupKeys [(1, "filter.frequency"), (7, "gain")] ∧
    ParamOnce [(1, "filter.frequency"), (7, "gain")] ∧
    LearnAssignProp [(1, "filter.frequency"), (7, "gain")] 5 "envelope.attack"
      176 64 sampleSettings :=
  ⟨by decide,
   show (([(1, "filter.frequency"), (7, "gain")] : List (Nat × String)).map
     Prod.fst).Nodup by decide,
   show (([(1, "filter.frequency"), (7, "gain")] : List (Nat × String)).map
     Prod.snd).Nodup by decide,
   claim_C3_learn_assignment [(1, "filter.frequency"), (7, "gain")] 5
     "envelope.attack" 176 64 sampleSettings (by decide)
     (show (([(1, "filter.frequency"), (7, "gain")] : List (Nat × String)).map
       Prod.fst).Nodup by decide)
     (show (([(1, "filter.frequency"), (7, "gain")] : List (Nat × String)).map
       Prod.snd).Nodup by decide)⟩

lemma getParamValue_update_self (pd : ParamDef) (hmem : pd ∈ MAPPABLE_PARAMS)
    (v : ℚ) (st : SynthSettings) :
    getParamValue (updateNestedSetting pd.id v st) pd.id = some v := by
  simp only [MAPPABLE_PARAMS] at hmem
  fin_cases hmem <;> rfl

lemma find?_MAPPABLE_self (pd : ParamDef) (hmem : pd ∈ MAPPABLE_PARAMS) :
    MAPPABLE_PARAMS.find? (fun e => e.id = pd.id) = some pd := by
  simp only [MAPPABLE_PARAMS] at hmem
  fin_cases hmem <;> rfl

lemma minVal_le_maxVal (pd : ParamDef) (hmem : pd ∈ MAPPABLE_PARAMS) :
    pd.minVal ≤ pd.maxVal := by
  simp only [MAPPABLE_PARAMS] at hmem
  fin_cases hmem <;> norm_num

/-- The settings update performed by the value-application branch of
`handleMIDIMessage`. -/
lemma handleCC_apply_settings (m : List (Nat × String)) (status cc v : Nat)
    (st : SynthSettings) (path : String) (pd : ParamDef)
    (hst : status &&& 0xF0 = 0xB0) (hlk : lookupCC m cc = some path)
    (hfind : MAPPABLE_PARAMS.find? (fun e => e.id = path) = some pd) :
    (handleMIDIMessage status cc v ⟨m, none, st⟩).1.settings
      = updateNestedSetting path
          (((v : ℚ) / 127) * (pd.maxVal - pd.minVal) + pd.minVal) st := by
  simp [handleMIDIMessage, hst, hlk, hfind]

/-- Formal content of claim C4: with controller `cc` bound to the
numeric parameter `pd`, a control-change with value `v` sets the
parameter to `min + (v/127)*(max-min)`; value 0 lands exactly on the
declared minimum, 127 exactly on the maximum, and 64 within half a
controller step of the midpoint. -/
def RescaleProp (m : List (Nat × String)) (status cc v : Nat)
    (st : SynthSettings) (pd : ParamDef) : Prop :=
  getParamValue (handleMIDIMessage status cc v ⟨m, none, st⟩).1.settings pd.id
      = some (pd.minVal + ((v : ℚ) / 127) * (pd.maxVal - pd.minVal)) ∧
  (v = 0 →
    pd.minVal + ((v : ℚ) / 127) * (pd.maxVal - pd.minVal) = pd.minVal) ∧
  (v = 127 →
    pd.minVal + ((v : ℚ) / 127) * (pd.maxVal - pd.minVal) = pd.maxVal) ∧
  |(pd.minVal + ((64 : ℚ) / 127) * (pd.maxVal - pd.minVal))
      - (pd.minVal + (pd.maxVal - pd.minVal) / 2)|
    ≤ (pd.maxVal - pd.minVal) / 254

/-- C4: the controller's 0-127 value is linearly rescaled into the bound
parameter's declared range; 0 maps to the declared minimum, 127 to the
declared maximum, and 64 within rounding distance of the midpoint. -/
theorem claim_C4_linear_rescale (m : List (Nat × String)) (status cc v : Nat)
    (st : SynthSettings) (pd : ParamDef) (hst : status &&& 0xF0 = 0xB0)
    (hmem : pd ∈ MAPPABLE_PARAMS) (hv : v ≤ 127)
    (hlk : lookupCC m cc = some pd.id) :
    RescaleProp m status cc v st pd := by
  have hle := minVal_le_maxVal pd hmem
  refine ⟨?_, ?_, ?_, ?_⟩
  · rw [handleCC_apply_settings m status cc v st pd.id pd hst hlk
      (find?_MAPPABLE_self pd hmem)]
    rw [getParamValue_update_self pd hmem]
    exact congrArg some (by ring)
  · intro h
    subst h
    norm_num
  · intro h
    subst h
    norm_num
  · have hdiff : (pd.minVal + ((64 : ℚ) / 127) * (pd.maxVal - pd.minVal))
        - (pd.minVal + (pd.maxVal - pd.minVal) / 2)
        = (pd.maxVal - pd.minVal) / 254 := by ring
    rw [hdiff, abs_of_nonneg (by linarith)]

/-- Witness for C4 at a concrete input: controller 1 is bound to the
filter cutoff in the default table; send value 64. -/
theorem claim_C4_linear_rescale_witness :
    (176 &&& 0xF0 = 0xB0) ∧
    (⟨"filter.frequency", "Filter Cutoff", 20, 15000⟩ : ParamDef) ∈ MAPPABLE_PARAMS ∧
    (64 : Nat) ≤ 127 ∧
    lookupCC [(1, "filter.frequency"), (7, "gain")] 1 = some "filter.frequency" ∧
    RescaleProp [(1, "filter.frequency"), (7, "gain")] 176 1 64 sampleSettings
      ⟨"filter.frequency", "Filter Cutoff", 20, 15000⟩ :=
  ⟨by decide, by simp [MAPPABLE_PARAMS], by decide, by rfl,
   claim_C4_linear_rescale [(1, "filter.frequency"), (7, "gain")] 176 1 64
     sampleSettings ⟨"filter.frequency", "Filter Cutoff", 20, 15000⟩
     (by decide) (by simp [MAPPABLE_PARAMS]) (by decide) (by rfl)⟩

/-- A state whose persisted mapping table binds controller 5 to the
boolean path "glide" (producible by the learn flow of an earlier
Controls revision, or by editing the persisted table), with glide
currently off. -/
def glideBoundState : MidiState :=
  { mappings := [(5, "glide")],
    learningParam := none,
    settings := { sampleSettings with glide := false } }

/-- Counterexample to claim C5: controller 5 is bound to "glide" and the
incoming value 127 rescales above any midpoint, so the claim predicts
the glide setting becomes true - but `handleMIDIMessage` leaves the
settings (and in particular glide) entirely unchanged, because "glide"
has no `MAPPABLE_PARAMS` entry and the value-application branch requires
one. -/
theorem claim_C5_threshold_counterexample :
    (handleMIDIMessage 176 5 127 glideBoundState).1.settings.glide = false ∧
    (handleMIDIMessage 176 5 127 glideBoundState).1.settings
      = glideBoundState.settings := by
  constructor
  · rfl
  · rfl

/-- C5 as amended: a control-change on a controller bound to "glide"
leaves the settings unchanged (the path has no `MAPPABLE_PARAMS` entry,
and the value-application branch requires one); the 0.5 thresholding
exists only inside `updateNestedSetting`, which the controller path
never reaches with the path "glide". -/
theorem claim_C5_glide_not_mappable (m : List (Nat × String))
    (status cc v : Nat) (st : SynthSettings)
    (hst : status &&& 0xF0 = 0xB0) (hlk : lookupCC m cc = some "glide") :
    (handleMIDIMessage status cc v ⟨m, none, st⟩).1.settings = st ∧
    ∀ (w : ℚ) (st2 : SynthSettings),
      (updateNestedSetting "glide" w st2).glide = decide (w > 1/2) := by
  constructor
  · have hfind : MAPPABLE_PARAMS.find? (fun e => e.id = "glide") = none := rfl
    simp [handleMIDIMessage, hst, hlk, hfind]
  · intro w st2
    rfl

/-- Witness for the amended C5 at a concrete input. -/
theorem claim_C5_glide_not_mappable_witness :
    (176 &&& 0xF0 = 0xB0) ∧
    lookupCC [(5, "glide")] 5 = some "glide" ∧
    ((handleMIDIMessage 176 5 64 ⟨[(5, "glide")], none, sampleSettings⟩).1.settings
        = sampleSettings ∧
     ∀ (w : ℚ) (st2 : SynthSettings),
       (updateNestedSetting "glide" w st2).glide = decide (w > 1/2)) :=
  ⟨by decide, by rfl,
   claim_C5_glide_not_mappable [(5, "glide")] 176 5 64 sampleSettings
     (by decide) (by rfl)⟩

/-- A note event recorded by the looper (`NoteEvent` restricted to the
fields the looper uses): note label, frequency, and a millisecond
timestamp relative to the recording/playback origin. -/
structure LoopEvent where
  note : String
  frequency : ℚ
  timestamp : ℤ
deriving DecidableEq

/-- `RecordedLoop` from types.ts.  The JS id is a random string; it is
modelled as a number drawn from a freshness counter, since only identity
matters. -/
structure RecordedLoop where
  id : Nat
  name : String
  events : List LoopEvent
  duration : ℤ
  mode : LoopMode
deriving DecidableEq

/-- Playback direction of one cycle in `playLoop`. -/
inductive PlayDirection
  | forward
  | backward
deriving DecidableEq

/-- Direction flip used by ping-pong cycles. -/
def flipDirection : PlayDirection → PlayDirection
  | .forward => .backward
  | .backward => .forward

/-- `eventsToPlay` (Looper.tsx lines 157-159): forward playback uses the
recorded events; backward playback re-maps every timestamp to
`duration - timestamp`. -/
def eventsToPlay (loop : RecordedLoop) : PlayDirection → List LoopEvent
  | .forward => loop.events
  | .backward =>
      loop.events.map (fun e => { e with timestamp := loop.duration - e.timestamp })

/-- The note-on schedule of one playback cycle: each event's note-on
timer fires at its (possibly re-mapped) timestamp offset from the cycle
start (Looper.tsx line 162). -/
def cycleNoteOns (loop : RecordedLoop) (dir : PlayDirection) : List (String × ℤ) :=
  (eventsToPlay loop dir).map (fun e => (e.note, e.timestamp))

/-- End-of-cycle continuation (Looper.tsx lines 177-184): oneshot stops,
pingpong flips direction, any other mode replays forward. -/
def nextDirection (mode : LoopMode) (dir : PlayDirection) : Option PlayDirection :=
  match mode with
  | .oneshot => none
  | .pingpong => some (flipDirection dir)
  | .repeat => some PlayDirection.forward

/-- JS `array.slice(-n)`: the last `n` elements (all of them when the
array is shorter). -/
def rtake (n : Nat) (l : List (List RecordedLoop)) : List (List RecordedLoop) :=
  l.drop (l.length - n)

/-- The Looper component's state: the loop collection, the two history
stacks, playback bookkeeping (playing id, registered timer/interval
handles, progress map), the recording session, and freshness counters
for the host timer ids and loop ids.  `pendingTimers`/`pendingIntervals`
model the host's set of not-yet-fired, not-yet-cancelled callbacks. -/
structure LooperState where
  loops : List RecordedLoop
  undoStack : List (List RecordedLoop)
  redoStack : List (List RecordedLoop)
  playingLoopId : Option Nat
  playbackTimers : List Nat
  progressIntervals : List (Nat × Nat)
  loopProgress : List (Nat × ℚ)
  pendingTimers : List Nat
  pendingIntervals : List Nat
  nextTimerId : Nat
  isRecording : Bool
  recordedEvents : List LoopEvent
  recordingStartTime : ℤ
  nextLoopId : Nat
deriving DecidableEq

/-- `stopPlayback` (Looper.tsx lines 56-63): clear the playing id,
cancel (clearTimeout) every registered playback timer and empty the
registry, cancel (clearInterval) every registered progress interval and
empty that registry, and reset the progress map. -/
def stopPlayback (s : LooperState) : LooperState :=
  { s with playingLoopId := none,
           pendingTimers :=
             s.pendingTimers.filter (fun t => ¬ t ∈ s.playbackTimers),
           playbackTimers := [],
           pendingIntervals :=
             s.pendingIntervals.filter
               (fun t => ¬ t ∈ s.progressIntervals.map Prod.snd),
           progressIntervals := [],
           loopProgress := [] }

/-- The common core of every mutating loop action (`pushToHistory`
followed by `setLoops`, Looper.tsx lines 51-54): push the pre-mutation
collection onto the undo stack bounded to its last 20 entries, clear the
redo stack, and apply the mutation. -/
def mutateLoops (f : List RecordedLoop → List RecordedLoop) (s : LooperState) :
    LooperState :=
  { s with loops := f s.loops,
           undoStack := rtake 20 (s.undoStack ++ [s.loops]),
           redoStack := [] }

/-- `performUndo` (Looper.tsx lines 65-72): a no-op when the undo stack
is empty; otherwise restore the popped collection, push the current one
onto the redo stack, and halt playback. -/
def performUndo (s : LooperState) : LooperState :=
  if h : s.undoStack = [] then s
  else
    stopPlayback
      { s with loops := s.undoStack.getLast h,
               undoStack := s.undoStack.dropLast,
               redoStack := s.redoStack ++ [s.loops] }

/-- `performRedo` (Looper.tsx lines 74-81), the mirror of `performUndo`
(note: this push onto the undo stack is not bounded in the source). -/
def performRedo (s : LooperState) : LooperState :=
  if h : s.redoStack = [] then s
  else
    stopPlayback
      { s with loops := s.redoStack.getLast h,
               redoStack := s.redoStack.dropLast,
               undoStack := s.undoStack ++ [s.loops] }

/-- `startRecording` (Looper.tsx lines 106-114): raise the recording
flag, clear the event buffer, and capture the origin timestamp.  (The
optional metronome tick is a call into the audio engine and does not
touch looper state.) -/
def startRecording (now : ℤ) (s : LooperState) : LooperState :=
  { s with isRecording := true, recordedEvents := [], recordingStartTime := now }

/-- The loop committed by `stopRecording`: fresh id, sequential name
"LOOP N" with N the loop count plus one, the buffered events, duration
from the recording origin to the stop, and mode repeat. -/
def newRecordedLoop (now : ℤ) (s : LooperState) : RecordedLoop :=
  { id := s.nextLoopId,
    name := "LOOP " ++ toString (s.loops.length + 1),
    events := s.recordedEvents,
    duration := now - s.recordingStartTime,
    mode := LoopMode.repeat }

/-- `stopRecording` (Looper.tsx lines 116-130): lower the recording
flag; when the event buffer is non-empty, checkpoint history and append
the new loop.  The source does not clear `recordedEvents` here - the
buffer is only cleared by the next `startRecording`. -/
def stopRecording (now : ℤ) (s : LooperState) : LooperState :=
  if 0 < s.recordedEvents.length then
    { mutateLoops (fun L => L ++ [newRecordedLoop now s]) s with
        isRecording := false,
        nextLoopId := s.nextLoopId + 1 }
  else { s with isRecording := false }

/-- Mode cycling order used by `cycleMode` (Looper.tsx lines 192-201). -/
def cycleLoopMode : LoopMode → LoopMode
  | .repeat => .oneshot
  | .oneshot => .pingpong
  | .pingpong => .repeat

/-- `cycleMode` (Looper.tsx lines 192-212): checkpoint history, then
advance the target loop's mode.  (The 800 ms feedback overlay is pure
presentation and is not part of the model.) -/
def cycleMode (id : Nat) (s : LooperState) : LooperState :=
  mutateLoops
    (fun L => L.map (fun l => if l.id = id then { l with mode := cycleLoopMode l.mode } else l))
    s

/-- `saveEdit` (Looper.tsx lines 214-218): checkpoint history, then
rename the target loop, keeping the old name when the edit box is
empty (the `editName || l.name` fallback). -/
def saveEdit (id : Nat) (newName : String) (s : LooperState) : LooperState :=
  mutateLoops
    (fun L => L.map (fun l =>
      if l.id = id then { l with name := if newName = "" then l.name else newName } else l))
    s

/-- `deleteLoop` (Looper.tsx lines 220-224): checkpoint history, halt
playback when the deleted loop is the one playing, then drop it. -/
def deleteLoop (id : Nat) (s : LooperState) : LooperState :=
  let s1 := mutateLoops (fun L => L.filter (fun l => ¬ (l.id = id))) s
  if s.playingLoopId = some id then stopPlayback s1 else s1

/-- `clearAllLoops` (Looper.tsx lines 226-230): checkpoint history, halt
playback, drop every loop. -/
def clearAllLoops (s : LooperState) : LooperState :=
  stopPlayback (mutateLoops (fun _ => []) s)

/-- Formal content of claim C6: the backward cycle of a ping-pong loop
schedules every recorded event's note-on at offset `duration - timestamp`
from the cycle start; when the recorded timestamps are chronological the
mirrored offsets run in reverse chronological order; and completed
cycles alternate forward and backward. -/
def PingpongProp (loop : RecordedLoop) : Prop :=
  cycleNoteOns loop PlayDirection.backward
      = loop.events.map (fun e => (e.note, loop.duration - e.timestamp)) ∧
  List.Pairwise (fun a b : String × ℤ => b.2 ≤ a.2)
      (cycleNoteOns loop PlayDirection.backward) ∧
  nextDirection loop.mode PlayDirection.forward = some PlayDirection.backward ∧
  nextDirection loop.mode PlayDirection.backward = some PlayDirection.forward

/-- C6: ping-pong playback time-mirrors the backward cycle (each note-on
at `duration - timestamp`, so chronologically recorded notes sound in
reverse order) and alternates direction after each completed cycle. -/
theorem claim_C6_pingpong_mirror (loop : RecordedLoop)
    (hmode : loop.mode = LoopMode.pingpong)
    (hsorted : List.Pairwise (fun a b : LoopEvent => a.timestamp ≤ b.timestamp)
      loop.events) :
    PingpongProp loop := by
  refine ⟨?_, ?_, ?_, ?_⟩
  · simp [cycleNoteOns, eventsToPlay]
  · unfold cycleNoteOns eventsToPlay
    rw [List.map_map, List.pairwise_map]
    exact hsorted.imp (fun h => by simpa using sub_le_sub_left h _)
  · rw [hmode]; rfl
  · rw [hmode]; rfl

/-- Witness for C6 at a concrete input: a two-note ping-pong loop. -/
theorem claim_C6_pingpong_mirror_witness :
    (⟨0, "LOOP 1", [⟨"C4", 262, 0⟩, ⟨"E4", 330, 500⟩], 1000,
       LoopMode.pingpong⟩ : RecordedLoop).mode = LoopMode.pingpong ∧
    List.Pairwise (fun a b : LoopEvent => a.timestamp ≤ b.timestamp)
      [⟨"C4", 262, 0⟩, ⟨"E4", 330, 500⟩] ∧
    PingpongProp ⟨0, "LOOP 1", [⟨"C4", 262, 0⟩, ⟨"E4", 330, 500⟩], 1000,
      LoopMode.pingpong⟩ :=
  ⟨rfl, by decide,
   claim_C6_pingpong_mirror _ rfl (by decide)⟩

/-- An empty looper state, as mounted. -/
def emptyLooper : LooperState :=
  { loops := [], undoStack := [], redoStack := [], playingLoopId := none,
    playbackTimers := [], progressIntervals := [], loopProgress := [],
    pendingTimers := [], pendingIntervals := [], nextTimerId := 0,
    isRecording := false, recordedEvents := [], recordingStartTime := 0,
    nextLoopId := 0 }

/-- A recording session holding one buffered event. -/
def sampleRecState : LooperState :=
  { emptyLooper with isRecording := true,
                     recordedEvents := [⟨"C4", 262, 250⟩],
                     recordingStartTime := 0 }

/-- Counterexample to claim C7's "and the event buffer is cleared":
stopping this non-empty recording does commit a loop, yet the event
buffer still holds the recorded event afterwards - `stopRecording`
never clears it (only the next `startRecording` does). -/
theorem claim_C7_buffer_counterexample :
    (stopRecording 1000 sampleRecState).loops
      = [⟨0, "LOOP 1", [⟨"C4", 262, 250⟩], 1000, LoopMode.repeat⟩] ∧
    (stopRecording 1000 sampleRecState).recordedEvents = [⟨"C4", 262, 250⟩] := by
  constructor
  · rfl
  · rfl

/-- Formal content of the amended claim C7: stopping a recording with a
non-empty buffer checkpoints the pre-mutation collection, clears the
redo stack, and appends exactly the sequentially named repeat-mode loop
built from the buffer and the elapsed duration; stopping with an empty
buffer changes neither the collection nor the history; in both cases
the recording flag drops and the buffer is left unchanged - it is
cleared by the next `startRecording` instead. -/
def StopRecordingProp (now : ℤ) (s : LooperState) : Prop :=
  (s.recordedEvents ≠ [] →
    (stopRecording now s).undoStack = rtake 20 (s.undoStack ++ [s.loops]) ∧
    (stopRecording now s).redoStack = [] ∧
    (stopRecording now s).loops = s.loops ++ [newRecordedLoop now s]) ∧
  (s.recordedEvents = [] →
    (stopRecording now s).loops = s.loops ∧
    (stopRecording now s).undoStack = s.undoStack ∧
    (stopRecording now s).redoStack = s.redoStack) ∧
  (stopRecording now s).isRecording = false ∧
  (stopRecording now s).recordedEvents = s.recordedEvents ∧
  ∀ t : ℤ, (startRecording t s).recordedEvents = []

/-- C7 as amended: the commit-on-stop behaviour is as claimed except
that the event buffer survives the stop unchanged. -/
theorem claim_C7_stop_recording (now : ℤ) (s : LooperState) :
    StopRecordingProp now s := by
  by_cases h : s.recordedEvents = []
  · refine ⟨fun hne => absurd h hne, fun _ => ?_, ?_, ?_, fun t => rfl⟩
    · simp [stopRecording, h]
    · simp [stopRecording, h]
    · simp [stopRecording, h]
  · have hlen : 0 < s.recordedEvents.length := List.length_pos.2 h
    refine ⟨fun _ => ?_, fun he => absurd he h, ?_, ?_, fun t => rfl⟩
    · simp [stopRecording, hlen, mutateLoops]
    · simp [stopRecording, hlen]
    · simp [stopRecording, hlen, mutateLoops]

/-- Witness for the amended C7 at a concrete input (the same state as
the counterexample). -/
theorem claim_C7_stop_recording_witness :
    StopRecordingProp 1000 sampleRecState :=
  claim_C7_stop_recording 1000 sampleRecState

/-- A sequence of mutating loop actions applied in order, each through
the common push-then-mutate core. -/
def applyMutations (fs : List (List RecordedLoop → List RecordedLoop))
    (s : LooperState) : LooperState :=
  fs.foldl (fun t f => mutateLoops f t) s

/-- The loop collection after the first `k` mutations. -/
def loopsAfter (fs : List (List RecordedLoop → List RecordedLoop))
    (s0 : LooperState) (k : Nat) : List RecordedLoop :=
  (applyMutations (fs.take k) s0).loops

lemma getLast_eq_of_concat (l xs : List (List RecordedLoop))
    (a : List RecordedLoop) (h : l ≠ []) (heq : l = xs ++ [a]) :
    l.getLast h = a := by
  subst heq
  simp

lemma range_concat (n : Nat) : List.range (n + 1) = List.range n ++ [n] :=
  List.range_succ n

/-- `performUndo` on a non-empty undo stack. -/
lemma performUndo_of_ne (s : LooperState) (h : s.undoStack ≠ []) :
    performUndo s = stopPlayback
      { s with loops := s.undoStack.getLast h,
               undoStack := s.undoStack.dropLast,
               redoStack := s.redoStack ++ [s.loops] } := by
  unfold performUndo
  rw [dif_neg h]

/-- `performRedo` on a non-empty redo stack. -/
lemma performRedo_of_ne (s : LooperState) (h : s.redoStack ≠ []) :
    performRedo s = stopPlayback
      { s with loops := s.redoStack.getLast h,
               redoStack := s.redoStack.dropLast,
               undoStack := s.undoStack ++ [s.loops] } := by
  unfold performRedo
  rw [dif_neg h]

lemma rtake_append_suffix (n : Nat) (xs ys : List (List RecordedLoop))
    (h : ys.length ≤ n) : ∃ xs2, rtake n (xs ++ ys) = xs2 ++ ys := by
  refine ⟨xs.drop ((xs ++ ys).length - n), ?_⟩
  have hle : (xs ++ ys).length - n ≤ xs.length := by
    rw [List.length_append]
    omega
  unfold rtake
  rw [List.drop_append_of_le_length hle]

/-- Undo phase: with the last `N` pre-mutation collections sitting on
top of the undo stack and an empty redo stack, `j` undos restore the
collection from `N - j` mutations, move the popped entries across, and
mirror them onto the redo stack. -/
lemma undo_phase (P : List (List RecordedLoop)) (lfun : Nat → List RecordedLoop)
    (N : Nat) (t : LooperState)
    (hloops : t.loops = lfun N)
    (hundo : t.undoStack = P ++ (List.range N).map lfun)
    (hredo : t.redoStack = []) :
    ∀ j, j ≤ N →
      (performUndo^[j] t).loops = lfun (N - j) ∧
      (performUndo^[j] t).undoStack = P ++ (List.range (N - j)).map lfun ∧
      (performUndo^[j] t).redoStack
        = (List.range j).map (fun i => lfun (N - i)) := by
  intro j
  induction j with
  | zero =>
      intro _
      simpa using ⟨hloops, hundo, hredo⟩
  | succ j ih =>
      intro hj
      obtain ⟨hl, hu, hr⟩ := ih (Nat.le_of_succ_le hj)
      have hlt : j < N := hj
      set u := performUndo^[j] t with hu_def
      have hNj : N - j = (N - (j + 1)) + 1 := by omega
      have hrange : List.range (N - j)
          = List.range (N - (j + 1)) ++ [N - (j + 1)] := by
        rw [hNj]
        exact range_concat _
      have hu2 : u.undoStack
          = (P ++ (List.range (N - (j + 1))).map lfun) ++ [lfun (N - (j + 1))] := by
        rw [hu, hrange, List.map_append, List.append_assoc]
        rfl
      have hne : u.undoStack ≠ [] := by
        rw [hu2]
        simp
      rw [Function.iterate_succ_apply', performUndo_of_ne u hne]
      refine ⟨?_, ?_, ?_⟩
      · show u.undoStack.getLast hne = lfun (N - (j + 1))
        exact getLast_eq_of_concat _ _ _ hne hu2
      · show u.undoStack.dropLast = P ++ (List.range (N - (j + 1))).map lfun
        rw [hu2]
        simp
      · show u.redoStack ++ [u.loops]
            = (List.range (j + 1)).map (fun i => lfun (N - i))
        rw [hr, hl, range_concat]
        simp

/-- Redo phase: the exact mirror of the undo phase. -/
lemma redo_phase (P : List (List RecordedLoop)) (lfun : Nat → List RecordedLoop)
    (N : Nat) (t : LooperState)
    (hloops : t.loops = lfun 0)
    (hundo : t.undoStack = P)
    (hredo : t.redoStack = (List.range N).map (fun i => lfun (N - i))) :
    ∀ j, j ≤ N →
      (performRedo^[j] t).loops = lfun j ∧
      (performRedo^[j] t).undoStack = P ++ (List.range j).map lfun ∧
      (performRedo^[j] t).redoStack
        = (List.range (N - j)).map (fun i => lfun (N - i)) := by
  intro j
  induction j with
  | zero =>
      intro _
      simpa using ⟨hloops, hundo, hredo⟩
  | succ j ih =>
      intro hj
      obtain ⟨hl, hu, hr⟩ := ih (Nat.le_of_succ_le hj)
      have hlt : j < N := hj
      set u := performRedo^[j] t with hu_def
      have hNj : N - j = (N - (j + 1)) + 1 := by omega
      have hval : N - (N - (j + 1)) = j + 1 := by omega
      have hrange : List.range (N - j)
          = List.range (N - (j + 1)) ++ [N - (j + 1)] := by
        rw [hNj]
        exact range_concat _
      have hr2 : u.redoStack
          = ((List.range (N - (j + 1))).map (fun i => lfun (N - i)))
              ++ [lfun (j + 1)] := by
        rw [hr, hrange, List.map_append]
        simp [hval]
      have hne : u.redoStack ≠ [] := by
        rw [hr2]
        simp
      rw [Function.iterate_succ_apply', performRedo_of_ne u hne]
      refine ⟨?_, ?_, ?_⟩
      · show u.redoStack.getLast hne = lfun (j + 1)
        exact getLast_eq_of_concat _ _ _ hne hr2
      · show u.undoStack ++ [u.loops] = P ++ (List.range (j + 1)).map lfun
        rw [hu, hl, range_concat, List.map_append, List.append_assoc]
        rfl
      · show u.redoStack.dropLast
            = (List.range (N - (j + 1))).map (fun i => lfun (N - i))
        rw [hr2]
        simp

/-- Mutation phase: after `k ≤ 20` mutations, the undo stack ends with
the `k` pre-mutation collections in order, and (once at least one
mutation happened) the redo stack is empty. -/
lemma mutation_phase (fs : List (List RecordedLoop → List RecordedLoop))
    (s0 : LooperState) (h20 : fs.length ≤ 20) :
    ∀ k, k ≤ fs.length →
      (∃ P, (applyMutations (fs.take k) s0).undoStack
          = P ++ (List.range k).map (loopsAfter fs s0)) ∧
      (1 ≤ k → (applyMutations (fs.take k) s0).redoStack = []) := by
  intro k
  induction k with
  | zero =>
      intro _
      exact ⟨⟨s0.undoStack, by simp [applyMutations]⟩, by omega⟩
  | succ k ih =>
      intro hk
      obtain ⟨⟨P, hP⟩, _⟩ := ih (Nat.le_of_succ_le hk)
      have hklt : k < fs.length := hk
      have htake : fs.take (k + 1) = fs.take k ++ [fs.get ⟨k, hklt⟩] := by
        simp [List.take_succ, List.get?_eq_get hklt]
      have hstep : applyMutations (fs.take (k + 1)) s0
          = mutateLoops (fs.get ⟨k, hklt⟩) (applyMutations (fs.take k) s0) := by
        unfold applyMutations
        rw [htake, List.foldl_append]
        rfl
      constructor
      · have hsh : (mutateLoops (fs.get ⟨k, hklt⟩)
            (applyMutations (fs.take k) s0)).undoStack
            = rtake 20 ((P ++ (List.range (k + 1)).map (loopsAfter fs s0))) := by
          show rtake 20 ((applyMutations (fs.take k) s0).undoStack
              ++ [(applyMutations (fs.take k) s0).loops])
            = rtake 20 (P ++ (List.range (k + 1)).map (loopsAfter fs s0))
          rw [hP, range_concat, List.map_append, List.append_assoc]
          rfl
        obtain ⟨P2, hP2⟩ := rtake_append_suffix 20 P
          ((List.range (k + 1)).map (loopsAfter fs s0))
          (by simp; omega)
        exact ⟨P2, by rw [hstep, hsh, hP2]⟩
      · intro _
        rw [hstep]
        rfl

/-- Formal content of claim C8: after any sequence of at most 20
mutating loop actions, `k` undos restore the collection as it stood
after the first `length - k` mutations, and `k` redos after a full undo
chain restore the collection as it stood after the first `k`
mutations - the exact pre- and post-mutation collections at each
step. -/
def UndoRedoSymmetryProp (fs : List (List RecordedLoop → List RecordedLoop))
    (s0 : LooperState) : Prop :=
  ∀ k, k ≤ fs.length →
    (performUndo^[k] (applyMutations fs s0)).loops
        = loopsAfter fs s0 (fs.length - k) ∧
    (performRedo^[k] (performUndo^[fs.length] (applyMutations fs s0))).loops
        = loopsAfter fs s0 k

/-- C8: every mutating action pushes the pre-mutation collection onto
the 20-bounded undo stack and clears redo (see `mutateLoops`, used by
`stopRecording`, `saveEdit`, `deleteLoop`, `clearAllLoops` and
`cycleMode`); undo pops into the collection while mirroring onto redo,
and redo is the inverse - so N mutations followed by N undos and N
redos reproduce the exact collections at each step. -/
theorem claim_C8_undo_redo_symmetry
    (fs : List (List RecordedLoop → List RecordedLoop)) (s0 : LooperState)
    (h20 : fs.length ≤ 20) : UndoRedoSymmetryProp fs s0 := by
  intro k hk
  rcases Nat.eq_zero_or_pos fs.length with hN | hN
  · have hfs : fs = [] := List.length_eq_zero.1 hN
    subst hfs
    have hk0 : k = 0 := by simpa using hk
    subst hk0
    exact ⟨rfl, rfl⟩
  · obtain ⟨⟨P, hP⟩, hre⟩ := mutation_phase fs s0 h20 fs.length (le_refl _)
    rw [List.take_length] at hP hre
    have hloops : (applyMutations fs s0).loops = loopsAfter fs s0 fs.length := by
      unfold loopsAfter
      rw [List.take_length]
    have hU := undo_phase P (loopsAfter fs s0) fs.length (applyMutations fs s0)
      hloops hP (hre hN)
    refine ⟨(hU k hk).1, ?_⟩
    obtain ⟨hl0, hu0, hr0⟩ := hU fs.length (le_refl _)
    have hR := redo_phase P (loopsAfter fs s0) fs.length
      (performUndo^[fs.length] (applyMutations fs s0))
      (by rw [hl0, Nat.sub_self])
      (by rw [hu0, Nat.sub_self]; simp)
      hr0
    exact (hR k hk).1

/-- A loop used by the C8 witness mutation. -/
def demoLoop : RecordedLoop :=
  { id := 0, name := "LOOP 1", events := [⟨"C4", 262, 0⟩], duration := 1000,
    mode := LoopMode.repeat }

/-- Witness for C8 at a concrete input: one commit-style mutation on an
empty looper, then one undo and one redo. -/
theorem claim_C8_undo_redo_symmetry_witness :
    ([fun L => L ++ [demoLoop]] :
        List (List RecordedLoop → List RecordedLoop)).length ≤ 20 ∧
    UndoRedoSymmetryProp [fun L => L ++ [demoLoop]] emptyLooper :=
  ⟨by decide,
   claim_C8_undo_redo_symmetry [fun L => L ++ [demoLoop]] emptyLooper (by decide)⟩

/-- One `executePlayback` invocation's registrations (Looper.tsx lines
140-187): a fresh progress interval stored under the loop's id, then one
note-on timer and one note-off timer per event plus the end-of-cycle
timer, every handle pushed into `playbackTimers` and pending at the
host. -/
def scheduleCycleState (loop : RecordedLoop) (dir : PlayDirection)
    (s : LooperState) : LooperState :=
  let iid := s.nextTimerId
  let evs := eventsToPlay loop dir
  let tids := (List.range (2 * evs.length + 1)).map (fun k => iid + 1 + k)
  { s with nextTimerId := iid + 2 + 2 * evs.length,
           pendingIntervals := s.pendingIntervals ++ [iid],
           progressIntervals := s.progressIntervals ++ [(loop.id, iid)],
           pendingTimers := s.pendingTimers ++ tids,
           playbackTimers := s.playbackTimers ++ tids }

/-- Every pending playback callback is registered: timers in
`playbackTimers`, interval samplers in `progressIntervals`.  This is
how `playLoop` creates them - each `setTimeout` handle is pushed into
the registry and each interval is stored under its loop id. -/
def SessionInvariant (s : LooperState) : Prop :=
  (∀ t ∈ s.pendingTimers, t ∈ s.playbackTimers) ∧
  (∀ t ∈ s.pendingIntervals, t ∈ s.progressIntervals.map Prod.snd)

/-- Reported progress for a loop id: the stored percentage, or 0 when
absent (the `loopProgress[loop.id] || 0` read). -/
def progressOf (s : LooperState) (lid : Nat) : ℚ :=
  ((s.loopProgress.find? (fun e => e.1 = lid)).map Prod.snd).getD 0

/-- Formal content of claim C9: on a state satisfying the session
invariant, `stopPlayback` leaves no pending timer and no pending
interval (no callback registered before the stop can fire afterwards),
reports zero progress for every loop, and clears the playing-loop
state; and the cycle scheduler preserves the invariant, so it holds of
every state playback scheduling can build. -/
def StopPlaybackProp (s : LooperState) : Prop :=
  (stopPlayback s).pendingTimers = [] ∧
  (stopPlayback s).pendingIntervals = [] ∧
  (stopPlayback s).playingLoopId = none ∧
  (∀ lid : Nat, progressOf (stopPlayback s) lid = 0) ∧
  (∀ (loop : RecordedLoop) (dir : PlayDirection),
    SessionInvariant (scheduleCycleState loop dir s))

/-- C9: stopping playback cancels every pending note timer and progress
interval of the playback session, resets all reported progress to zero
and clears the playing-loop state. -/
theorem claim_C9_stop_playback_cancels (s : LooperState)
    (hinv : SessionInvariant s) : StopPlaybackProp s := by
  obtain ⟨ht, hi⟩ := hinv
  refine ⟨?_, ?_, rfl, fun lid => rfl, ?_⟩
  · show s.pendingTimers.filter (fun t => ¬ t ∈ s.playbackTimers) = []
    rw [List.filter_eq_nil]
    intro a ha
    simpa using ht a ha
  · show s.pendingIntervals.filter
        (fun t => ¬ t ∈ s.progressIntervals.map Prod.snd) = []
    rw [List.filter_eq_nil]
    intro a ha
    simpa using hi a ha
  · intro loop dir
    constructor
    · intro t htm
      show t ∈ s.playbackTimers ++ _
      rcases List.mem_append.1 htm with h | h
      · exact List.mem_append.2 (Or.inl (ht t h))
      · exact List.mem_append.2 (Or.inr h)
    · intro t htm
      show t ∈ (s.progressIntervals ++ [(loop.id, s.nextTimerId)]).map Prod.snd
      rw [List.map_append]
      rcases List.mem_append.1 htm with h | h
      · exact List.mem_append.2 (Or.inl (hi t h))
      · exact List.mem_append.2 (Or.inr (by simpa using h))

/-- A looper state mid-playback: one loop, a playing id, one pending
interval and three pending timers, all registered. -/
def playingLooper : LooperState :=
  { emptyLooper with
      loops := [demoLoop],
      playingLoopId := some 0,
      playbackTimers := [1, 2, 3],
      pendingTimers := [1, 2, 3],
      progressIntervals := [(0, 0)],
      pendingIntervals := [0],
      loopProgress := [(0, 1/2)],
      nextTimerId := 4 }

/-- Witness for C9 at a concrete input: the mid-playback state above. -/
theorem claim_C9_stop_playback_cancels_witness :
    SessionInvariant playingLooper ∧ StopPlaybackProp playingLooper :=
  ⟨⟨by decide, by decide⟩,
   claim_C9_stop_playback_cancels playingLooper ⟨by decide, by decide⟩⟩

/-- Formal content of claim C10: undo with an empty undo stack, and
redo with an empty redo stack, return the state completely unchanged -
loops, both stacks, playing id, timers, intervals, progress and all -
in particular without halting active playback. -/
def EmptyHistoryNoopProp (s : LooperState) : Prop :=
  (s.undoStack = [] → performUndo s = s) ∧
  (s.redoStack = [] → performRedo s = s)

/-- C10: `performUndo`/`performRedo` guard on an empty stack and return
before touching anything, unlike a successful undo/redo which also
stops playback. -/
theorem claim_C10_empty_history_noop (s : LooperState) :
    EmptyHistoryNoopProp s := by
  constructor
  · intro h
    unfold performUndo
    rw [dif_pos h]
  · intro h
    unfold performRedo
    rw [dif_pos h]

/-- Witness for C10 at a concrete input: the mid-playback state with
empty history; both calls leave it identical, keeping its playback
running. -/
theorem claim_C10_empty_history_noop_witness :
    performUndo playingLooper = playingLooper ∧
    performRedo playingLooper = playingLooper :=
  ⟨(claim_C10_empty_history_noop playingLooper).1 rfl,
   (claim_C10_empty_history_noop playingLooper).2 rfl⟩

end ProSynth
